import Mathlib

/-!
Verification of the Larvitar volumetric geometry and reslicing engine
(`src/imaging/image_utils.js` and the series i/o module) through a shallow
embedding in Lean 4.

Modelling conventions:
- JavaScript numbers that appear in the permutation tables are modelled in
  sign-magnitude form (`JSNum`): the tables use the IEEE signed zero `-0`
  to mean "axis 0, flipped", so the sign bit must be kept separately from
  the magnitude.  Magnitudes are rationals (every finite JS float is a
  rational).
- JS arrays indexed by small integers are modelled as functions `Nat → α`
  (reads outside the written range return the initial fill value).
- JS `undefined` flowing through an optional attribute is modelled with
  `Option`; a code path that throws a `TypeError` (e.g. indexing into
  `undefined`) is modelled as `none` of the surrounding computation.
- Typed arrays (`Uint16Array` etc.) are modelled as a fixed size plus a
  content function; out-of-bounds stores are silently dropped, exactly as
  in JS.  Element values are kept in `ℚ`; the integer truncation done by a
  concrete typed array is irrelevant to the claims checked here.
-/

namespace Larvitar

/-- Canonical orientations: the three cutting planes of the reslice engine. -/
inductive Orient where
  | axial
  | sagittal
  | coronal
deriving DecidableEq

open Orient

instance : Fintype Orient :=
  ⟨⟨{Orient.axial, Orient.sagittal, Orient.coronal}, by decide⟩, by
    intro x; cases x <;> decide⟩

/-- Sign-magnitude JavaScript number: `neg` is the IEEE sign bit, `mag` the
absolute value.  `⟨true, 0⟩` is the JS value `-0`, distinct from `⟨false, 0⟩`. -/
structure JSNum where
  neg : Bool
  mag : ℚ
deriving DecidableEq

/-- Result domain of the JS expression `1 / x`: either a signed infinity
(when `x` is a signed zero) or a finite rational. -/
inductive JSRecip where
  | posInf
  | negInf
  | fin (q : ℚ)
deriving DecidableEq

/-- Model of `Math.abs`: clears the sign bit. -/
def jsAbs (x : JSNum) : JSNum := ⟨false, x.mag⟩

/-- Model of the JS expression `1 / x` on sign-magnitude numbers:
`1 / (+0) = Infinity`, `1 / (-0) = -Infinity`, otherwise the signed finite
reciprocal. -/
def jsRecip (x : JSNum) : JSRecip :=
  if x.mag = 0 then (if x.neg then JSRecip.negInf else JSRecip.posInf)
  else JSRecip.fin ((if x.neg then (-1 : ℚ) else 1) / x.mag)

/-- Embedding of `isNegativeSign(x) { return 1 / x !== 1 / Math.abs(x); }`
from image_utils.js. -/
def isNegativeSign (x : JSNum) : Bool :=
  decide (jsRecip x ≠ jsRecip (jsAbs x))

/-- JS array indexing by a table entry: the entry magnitudes used by the
source are the integers 0, 1, 2. -/
def jsIdx (x : JSNum) : ℕ := x.mag.num.toNat

/-- Entries of the reslice permutation tables: triples of JS numbers. -/
def Tbl : Type := JSNum × JSNum × JSNum

instance : DecidableEq Tbl := by
  unfold Tbl; infer_instance

/-- Positional read of a table triple, as JS `permuteTable[n]`.  Index 2 is
the last defined slot; larger indices never occur in the source. -/
def tget (t : Tbl) (n : ℕ) : JSNum :=
  if n = 0 then t.1 else if n = 1 then t.2.1 else t.2.2

/-- Embedding of the `resliceTable` constant of image_utils.js:
`sagittal: { coronal: [-2, 1, 0], axial: [-2, 0, -1] }`,
`coronal: { sagittal: [2, 1, -0], axial: [0, 2, -1] }`,
`axial: { sagittal: [1, -2, -0], coronal: [0, -2, 1] }`.
A missing (self) pair is `none`, as the JS object lookup yields `undefined`. -/
def resliceTable (a b : Orient) : Option Tbl :=
  match a, b with
  | sagittal, coronal => some (⟨true, 2⟩, ⟨false, 1⟩, ⟨false, 0⟩)
  | sagittal, axial => some (⟨true, 2⟩, ⟨false, 0⟩, ⟨true, 1⟩)
  | coronal, sagittal => some (⟨false, 2⟩, ⟨false, 1⟩, ⟨true, 0⟩)
  | coronal, axial => some (⟨false, 0⟩, ⟨false, 2⟩, ⟨true, 1⟩)
  | axial, sagittal => some (⟨false, 1⟩, ⟨true, 2⟩, ⟨true, 0⟩)
  | axial, coronal => some (⟨false, 0⟩, ⟨true, 2⟩, ⟨false, 1⟩)
  | _, _ => none

/-- Absolute axis values of a table triple, as a multiset. -/
def tblAbsValues (t : Tbl) : Multiset ℕ :=
  {jsIdx t.1, jsIdx t.2.1, jsIdx t.2.2}

/-- Property checked entrywise for C5: either the pair is undefined, or the
absolute values of its table are a permutation of the axis set 0, 1, 2. -/
def tblAbsPermOk (o : Option Tbl) : Prop :=
  match o with
  | none => True
  | some t => tblAbsValues t = ({0, 1, 2} : Multiset ℕ)

instance (o : Option Tbl) : Decidable (tblAbsPermOk o) := by
  unfold tblAbsPermOk
  match o with
  | none => exact inferInstanceAs (Decidable True)
  | some t => exact inferInstanceAs (Decidable (_ = _))

/-- C5: the fixed permutation table is defined for exactly the six ordered
pairs of distinct canonical orientations (self pairs are undefined), and
every defined entry has absolute values forming a permutation of 0, 1, 2. -/
theorem resliceTable_six_entries_abs_perm :
    (∀ a b : Orient, (resliceTable a b).isSome ↔ a ≠ b) ∧
      ∀ a b : Orient, tblAbsPermOk (resliceTable a b) := by
  constructor
  · intro a b; cases a <;> cases b <;> simp [resliceTable]
  · intro a b; cases a <;> cases b <;> decide

/-- C6: the reciprocal-sign test of image_utils.js returns true on every
negative number and on negative zero, and false on every positive number
and on positive zero, so signed-zero permutation entries count as flipped. -/
theorem isNegativeSign_sign_semantics (m : ℚ) (hm : 0 < m) :
    isNegativeSign ⟨true, m⟩ = true ∧
      isNegativeSign ⟨false, m⟩ = false ∧
      isNegativeSign ⟨true, 0⟩ = true ∧
      isNegativeSign ⟨false, 0⟩ = false := by
  have hne : m ≠ 0 := ne_of_gt hm
  refine ⟨?_, ?_, by decide, by decide⟩
  · simp only [isNegativeSign, jsRecip, jsAbs, hne, decide_eq_true_eq]
    simp only [if_false]
    simp [hne]
    intro h
    rw [neg_div, one_div] at h
    have hinv : 0 < m⁻¹ := inv_pos.mpr hm
    linarith
  · simp [isNegativeSign, jsRecip, jsAbs, hne]

/-- Witness for C6 at the concrete magnitude 2. -/
theorem isNegativeSign_sign_semantics_witness :
    isNegativeSign ⟨true, 2⟩ = true ∧
      isNegativeSign ⟨false, 2⟩ = false ∧
      isNegativeSign ⟨true, 0⟩ = true ∧
      isNegativeSign ⟨false, 0⟩ = false :=
  isNegativeSign_sign_semantics 2 (by norm_num)

/-! Concrete evaluations of the sign test and of table indexing, used to
reduce the table entries that actually occur in the source. -/

@[simp] lemma isNeg_f0 : isNegativeSign ⟨false, 0⟩ = false := by decide

@[simp] lemma isNeg_f1 : isNegativeSign ⟨false, 1⟩ = false := by
  simp [isNegativeSign, jsAbs]

@[simp] lemma isNeg_f2 : isNegativeSign ⟨false, 2⟩ = false := by
  simp [isNegativeSign, jsAbs]

@[simp] lemma isNeg_t0 : isNegativeSign ⟨true, 0⟩ = true := by decide

@[simp] lemma isNeg_t1 : isNegativeSign ⟨true, 1⟩ = true := by
  norm_num [isNegativeSign, jsRecip, jsAbs]

@[simp] lemma isNeg_t2 : isNegativeSign ⟨true, 2⟩ = true := by
  norm_num [isNegativeSign, jsRecip, jsAbs]

@[simp] lemma jsIdx_mk0 (s : Bool) : jsIdx ⟨s, 0⟩ = 0 := by cases s <;> decide

@[simp] lemma jsIdx_mk1 (s : Bool) : jsIdx ⟨s, 1⟩ = 1 := by cases s <;> decide

@[simp] lemma jsIdx_mk2 (s : Bool) : jsIdx ⟨s, 2⟩ = 2 := by cases s <;> decide

/-- Assignment `a[n] = v` on a JS array viewed as an index function. -/
def setAt {α : Type} (a : ℕ → α) (n : ℕ) (v : α) : ℕ → α :=
  fun m => if m = n then v else a m

/-- The JS array literal `[i, j, k]` (reads past index 2 never occur). -/
def triple (i j k : ℤ) : ℕ → ℤ :=
  fun n => if n = 0 then i else if n = 1 then j else if n = 2 then k else 0

/-- Embedding of `remapVoxel([i, j, k], fromOrientation, toOrientation)` of
image_utils.js.  The source reads the per-orientation volume dimensions from
the global `getSerieDimensions()`; that collaborator is passed explicitly
here as `dims`.  The undefined table lookup of a same-orientation pair never
happens (the source returns early), and the remaining lookup is always
defined, so the `none` branch is unreachable. -/
def remapVoxel (dims : Orient → ℕ → ℤ) (i j k : ℤ) (fromO toO : Orient) :
    Option (ℕ → ℤ) :=
  if fromO = toO then some (triple i j k)
  else
    match resliceTable toO fromO with
    | none => none
    | some t =>
      let i' := if isNegativeSign (tget t 0) then dims fromO 0 - i else i
      let j' := if isNegativeSign (tget t 1) then dims fromO 1 - j else j
      let k' := if isNegativeSign (tget t 2) then dims fromO 2 - k else k
      some (setAt (setAt (setAt (triple 0 0 0) (jsIdx (tget t 0)) i')
        (jsIdx (tget t 1)) j') (jsIdx (tget t 2)) k')

/-- Dimension agreement for one orientation pair: the pair is undefined, or
the target dimensions are the unsigned permutation of the source dimensions
(the relation `getReslicedMetadata` establishes between the two views). -/
def dimsPairOk (dims : Orient → ℕ → ℤ) (a b : Orient) : Prop :=
  match resliceTable a b with
  | none => True
  | some t =>
      dims b 0 = dims a (jsIdx (tget t 0)) ∧
      dims b 1 = dims a (jsIdx (tget t 1)) ∧
      dims b 2 = dims a (jsIdx (tget t 2))

instance (dims : Orient → ℕ → ℤ) (a b : Orient) :
    Decidable (dimsPairOk dims a b) := by
  unfold dimsPairOk
  match resliceTable a b with
  | none => exact inferInstanceAs (Decidable True)
  | some t => exact inferInstanceAs (Decidable (_ ∧ _ ∧ _))

/-- Per-orientation dimensions of one volume: every defined pair agrees. -/
def dimsConsistent (dims : Orient → ℕ → ℤ) : Prop :=
  ∀ a b : Orient, dimsPairOk dims a b

instance (dims : Orient → ℕ → ℤ) : Decidable (dimsConsistent dims) :=
  inferInstanceAs (Decidable (∀ a b : Orient, dimsPairOk dims a b))

/-- C1: remapping an in-bounds voxel from orientation A to B and back again
returns the original voxel, for every pair of distinct canonical
orientations, given consistent per-orientation volume dimensions. -/
theorem remapVoxel_roundtrip (dims : Orient → ℕ → ℤ)
    (hd : dimsConsistent dims) (A B : Orient) (hAB : A ≠ B) (i j k : ℤ)
    (hi : 0 ≤ i ∧ i < dims A 0) (hj : 0 ≤ j ∧ j < dims A 1)
    (hk : 0 ≤ k ∧ k < dims A 2) :
    ∃ w w', remapVoxel dims i j k A B = some w ∧
      remapVoxel dims (w 0) (w 1) (w 2) B A = some w' ∧
      w' 0 = i ∧ w' 1 = j ∧ w' 2 = k := by
  cases A <;> cases B <;> try exact (hAB rfl).elim
  case axial.sagittal =>
    have e := hd Orient.axial Orient.sagittal
    simp only [dimsPairOk, resliceTable, tget, jsIdx_mk0, jsIdx_mk1,
      jsIdx_mk2] at e
    obtain ⟨e0, e1, e2⟩ := by simpa using e
    refine ⟨_, _, rfl, rfl, ?_, ?_, ?_⟩ <;>
      simp [remapVoxel, resliceTable, setAt, triple, tget] <;> omega
  case axial.coronal =>
    have e := hd Orient.axial Orient.coronal
    simp only [dimsPairOk, resliceTable, tget, jsIdx_mk0, jsIdx_mk1,
      jsIdx_mk2] at e
    obtain ⟨e0, e1, e2⟩ := by simpa using e
    refine ⟨_, _, rfl, rfl, ?_, ?_, ?_⟩ <;>
      simp [remapVoxel, resliceTable, setAt, triple, tget] <;> omega
  case sagittal.axial =>
    have e := hd Orient.sagittal Orient.axial
    simp only [dimsPairOk, resliceTable, tget, jsIdx_mk0, jsIdx_mk1,
      jsIdx_mk2] at e
    obtain ⟨e0, e1, e2⟩ := by simpa using e
    refine ⟨_, _, rfl, rfl, ?_, ?_, ?_⟩ <;>
      simp [remapVoxel, resliceTable, setAt, triple, tget] <;> omega
  case sagittal.coronal =>
    have e := hd Orient.sagittal Orient.coronal
    simp only [dimsPairOk, resliceTable, tget, jsIdx_mk0, jsIdx_mk1,
      jsIdx_mk2] at e
    obtain ⟨e0, e1, e2⟩ := by simpa using e
    refine ⟨_, _, rfl, rfl, ?_, ?_, ?_⟩ <;>
      simp [remapVoxel, resliceTable, setAt, triple, tget] <;> omega
  case coronal.axial =>
    have e := hd Orient.coronal Orient.axial
    simp only [dimsPairOk, resliceTable, tget, jsIdx_mk0, jsIdx_mk1,
      jsIdx_mk2] at e
    obtain ⟨e0, e1, e2⟩ := by simpa using e
    refine ⟨_, _, rfl, rfl, ?_, ?_, ?_⟩ <;>
      simp [remapVoxel, resliceTable, setAt, triple, tget] <;> omega
  case coronal.sagittal =>
    have e := hd Orient.coronal Orient.sagittal
    simp only [dimsPairOk, resliceTable, tget, jsIdx_mk0, jsIdx_mk1,
      jsIdx_mk2] at e
    obtain ⟨e0, e1, e2⟩ := by simpa using e
    refine ⟨_, _, rfl, rfl, ?_, ?_, ?_⟩ <;>
      simp [remapVoxel, resliceTable, setAt, triple, tget] <;> omega

/-- Concrete per-orientation dimensions of a 2 by 3 by 4 axial volume. -/
def dimsEx : Orient → ℕ → ℤ
  | Orient.axial, 0 => 2
  | Orient.axial, 1 => 3
  | Orient.axial, 2 => 4
  | Orient.sagittal, 0 => 3
  | Orient.sagittal, 1 => 4
  | Orient.sagittal, 2 => 2
  | Orient.coronal, 0 => 2
  | Orient.coronal, 1 => 4
  | Orient.coronal, 2 => 3
  | _, _ => 0

/-- Witness for C1 at the voxel (1, 2, 3) of the concrete axial volume,
remapped to sagittal and back. -/
theorem remapVoxel_roundtrip_witness :
    dimsConsistent dimsEx ∧ Orient.axial ≠ Orient.sagittal ∧
      ((0 : ℤ) ≤ 1 ∧ (1 : ℤ) < dimsEx Orient.axial 0) ∧
      ∃ w w', remapVoxel dimsEx 1 2 3 Orient.axial Orient.sagittal = some w ∧
        remapVoxel dimsEx (w 0) (w 1) (w 2) Orient.sagittal Orient.axial =
          some w' ∧
        w' 0 = 1 ∧ w' 1 = 2 ∧ w' 2 = 3 :=
  ⟨by decide, by decide, by decide,
    remapVoxel_roundtrip dimsEx (by decide) Orient.axial Orient.sagittal
      (by decide) 1 2 3 (by decide) (by decide) (by decide)⟩

/-- Slice metadata record with the attributes the claims exercise.
Optional fields model attributes that may be absent (JS `undefined`) on a
slice.  `x00280010` (rows), `x00280011` (cols), `x00280030` (pixel
spacing) and `x00200013` (instance number) are modelled total: the code
paths the claims exercise read them only from slices that carry them, as
the series data model requires. -/
structure Metadata where
  imageOrientation : Option (List ℚ)
  x00200037 : Option (List ℚ)
  imagePosition : Option (List ℚ)
  x00200032 : Option (List ℚ)
  pixelSpacing : Option (List ℚ)
  maxPixelValue : Option ℚ
  minPixelValue : Option ℚ
  x00280010 : ℕ
  x00280011 : ℕ
  x00280030 : List ℚ
  x00180050 : Option ℚ
  x00181090 : Option ℚ
  x00080033 : Option ℚ
  x00200013 : ℤ

/-- Cornerstone series: ordered image ids plus the instances map
(`seriesData.instances[imageId].metadata` is `meta imageId`). -/
structure SeriesData where
  imageIds : List ℕ
  meta : ℕ → Metadata

/-- Embedding of `getNormalOrientation(el)`: cross product of the first and
second 3-vectors of a 6-element orientation array.  The `getD` default is
never read on the length-6 arrays the data model supplies. -/
def getNormalOrientation (el : List ℚ) : List ℚ :=
  let a := [el.getD 0 0, el.getD 1 0, el.getD 2 0]
  let b := [el.getD 3 0, el.getD 4 0, el.getD 5 0]
  [a.getD 1 0 * b.getD 2 0 - a.getD 2 0 * b.getD 1 0,
    a.getD 2 0 * b.getD 0 0 - a.getD 0 0 * b.getD 2 0,
    a.getD 0 0 * b.getD 1 0 - a.getD 1 0 * b.getD 0 0]

/-- The projection `normal[0]*p[0] + normal[1]*p[1] + normal[2]*p[2]`
computed inline by `getDistanceBetweenSlices`. -/
def proj3 (nrm p : List ℚ) : ℚ :=
  nrm.getD 0 0 * p.getD 0 0 + nrm.getD 1 0 * p.getD 1 0 +
    nrm.getD 2 0 * p.getD 2 0

/-- Embedding of `getDistanceBetweenSlices(seriesData, sliceIndex1,
sliceIndex2)`, modelling the value the call returns: `none` is the JS
`undefined` result when slice i1's orientation or position attributes are
absent.  The call can also throw a TypeError instead of returning (an
index without an instance, or slice i2 resolving no position while slice
i1 resolved its attributes, so that `imagePosition2[0]` is read on
`undefined`); those paths are modelled by `getDistanceThrows` below, which
the embedded callers consult, and conservatively also map to `none`
here. -/
def getDistanceBetweenSlices (sd : SeriesData) (i1 i2 : ℕ) : Option ℚ :=
  if sd.imageIds.length ≤ 1 then some 0
  else
    match sd.imageIds[i1]? with
    | none => none
    | some id1 =>
      let m1 := sd.meta id1
      let io := m1.imageOrientation.orElse fun _ => m1.x00200037
      let ip := m1.imagePosition.orElse fun _ => m1.x00200032
      match io, ip with
      | some o, some p =>
        let nrm := getNormalOrientation o
        let d1 := proj3 nrm p
        match sd.imageIds[i2]? with
        | none => none
        | some id2 =>
          let m2 := sd.meta id2
          match m2.imagePosition.orElse fun _ => m2.x00200032 with
          | some p2 => some |d1 - proj3 nrm p2|
          | none => none
      | _, _ => none

/-- The TypeError paths of `getDistanceBetweenSlices(seriesData, i1, i2)`:
with more than one slice, an index that finds no instance throws
(`instance.metadata` on `undefined`), and slice i1 resolving orientation
and position while slice i2 resolves no position throws at
`imagePosition2[0]`.  On the remaining inputs the call returns (a number
or `undefined`), which `getDistanceBetweenSlices` models. -/
def getDistanceThrows (sd : SeriesData) (i1 i2 : ℕ) : Bool :=
  if sd.imageIds.length ≤ 1 then false
  else
    match sd.imageIds[i1]? with
    | none => true
    | some id1 =>
      let m1 := sd.meta id1
      let io := m1.imageOrientation.orElse fun _ => m1.x00200037
      let ip := m1.imagePosition.orElse fun _ => m1.x00200032
      match io, ip with
      | some _, some _ =>
        match sd.imageIds[i2]? with
        | none => true
        | some id2 =>
          ((sd.meta id2).imagePosition.orElse fun _ =>
            (sd.meta id2).x00200032).isNone
      | _, _ => false

/-- C7: the distance between a slice and itself is zero, for every series
and every valid slice index whose slice carries orientation and position
attributes, as the series data model requires. -/
theorem getDistanceBetweenSlices_self_zero (sd : SeriesData) (i id : ℕ)
    (hid : sd.imageIds[i]? = some id)
    (hio : ((sd.meta id).imageOrientation.orElse fun _ =>
      (sd.meta id).x00200037).isSome = true)
    (hip : ((sd.meta id).imagePosition.orElse fun _ =>
      (sd.meta id).x00200032).isSome = true) :
    getDistanceBetweenSlices sd i i = some 0 := by
  unfold getDistanceBetweenSlices
  by_cases hle : sd.imageIds.length ≤ 1
  · simp [hle]
  · rw [if_neg hle, hid]
    obtain ⟨o, ho⟩ := Option.isSome_iff_exists.mp hio
    obtain ⟨p, hp⟩ := Option.isSome_iff_exists.mp hip
    simp [ho, hp, hid, sub_self]

/-- Sample orientation and position metadata of an axial slice. -/
def mdAx (z : ℚ) : Metadata :=
  ⟨some [1, 0, 0, 0, 1, 0], none, some [0, 0, z], none, some [1, 1],
    some 3, some 1, 4, 4, [1, 1], some 2, none, none, 1⟩

/-- Concrete two-slice series used as a witness. -/
def seriesEx2 : SeriesData :=
  ⟨[10, 11], fun id => if id = 10 then mdAx 0 else mdAx 5⟩

/-- Witness for C7 on the concrete two-slice series at index 0. -/
theorem getDistanceBetweenSlices_self_zero_witness :
    getDistanceBetweenSlices seriesEx2 0 0 = some 0 :=
  getDistanceBetweenSlices_self_zero seriesEx2 0 10 rfl rfl rfl

/-- The size triple `[cols, rows, number of slices]` that
`getReslicedMetadata` reads from the sample metadata. -/
def fromSizeOf (sd : SeriesData) (sample : Metadata) : ℕ → ℕ :=
  fun n => if n = 0 then sample.x00280011
    else if n = 1 then sample.x00280010
    else sd.imageIds.length

/-- Embedding of `spacingArray(seriesData, sampleMetadata)`: column
spacing, row spacing, inter-slice distance.  The third entry prefers a
truthy `x00180050` tag (a zero tag is falsy in JS) and otherwise falls
back to the computed slice distance; it is optional because that fallback
can be `undefined`. -/
def spacingArray (sd : SeriesData) (sample : Metadata) : ℕ → Option ℚ :=
  fun n => if n = 0 then some (sample.x00280030.getD 1 0)
    else if n = 1 then some (sample.x00280030.getD 0 0)
    else match sample.x00180050 with
      | some v => if v = 0 then getDistanceBetweenSlices sd 0 1 else some v
      | none => getDistanceBetweenSlices sd 0 1

/-- The throw path of `spacingArray`: when the `x00180050` tag is falsy
the third entry runs `getDistanceBetweenSlices(seriesData, 0, 1)`, whose
TypeError paths abort the caller. -/
def spacingArrayThrows (sd : SeriesData) (sample : Metadata) : Bool :=
  match sample.x00180050 with
  | some v => if v = 0 then getDistanceThrows sd 0 1 else false
  | none => getDistanceThrows sd 0 1

/-- Embedding of `permuteValues(convertArray, sourceArray)`:
`output[i] = sourceArray[convertArray[i]]`. -/
def permuteValues {α : Type} (convertArray : ℕ → ℕ) (sourceArray : ℕ → α) :
    ℕ → α :=
  fun i => sourceArray (convertArray i)

/-- The index map `permuteTable.map(Math.abs)`. -/
def permuteAbsTable (t : Tbl) : ℕ → ℕ :=
  fun n => jsIdx (jsAbs (tget t n))

/-- Geometric fields of the metadata produced by `getReslicedMetadata`:
rows `x00280010` is `toSize[1]`, cols `x00280011` is `toSize[0]`, in-plane
spacing `x00280030` is `[toSpacing[1], toSpacing[0]]`, inter-slice spacing
`x00180050` is `toSpacing[2]`, and `numSlices` is the length of the
generated image id list (the loop bound `toSize[2]`). -/
structure ReslicedMeta where
  rows : ℕ
  cols : ℕ
  pixelSpacing : List (Option ℚ)
  sliceSpacing : Option ℚ
  numSlices : ℕ

/-- Embedding of `permuteSignedArrays(convertArray, sourceArray)` on a
triple of vectors: entry i is `sourceArray[abs(convertArray[i])]`, negated
componentwise when the table entry is negative. -/
def permuteSignedArrays (t : Tbl) (src : ℕ → List ℚ) : ℕ → List ℚ :=
  fun i =>
    let s := src (jsIdx (tget t i))
    if isNegativeSign (tget t i) then s.map fun v => -v else s

/-- Embedding of `getReslicedIOP(iop, permuteTable)` for a present iop
(the absent case returns `null` before the loop and is harmless there):
permute the row/col/normal triple by the signed table and keep the first
two vectors. -/
def getReslicedIOP (iop : List ℚ) (t : Tbl) : List ℚ :=
  let u := iop.take 3
  let v := (iop.drop 3).take 3
  let w := getNormalOrientation iop
  let shuffled := permuteSignedArrays t fun n =>
    if n = 0 then u else if n = 1 then v else w
  shuffled 0 ++ shuffled 1

/-- The major-axis computation of `getReslicedIPP`:
`indexOf(absW, max(absW))`, the first index at which the componentwise
absolute value of a 3-vector attains its maximum.  Faithful for the
numeric 3-vectors the data model supplies (no NaN components). -/
def majorAxisIndex (wv : List ℚ) : ℕ :=
  let a0 := |wv.getD 0 0|
  let a1 := |wv.getD 1 0|
  let a2 := |wv.getD 2 0|
  let m := max a0 (max a1 a2)
  if a0 = m then 0 else if a1 = m then 1 else 2

/-- The spacing/versor branch selection of `getReslicedIPP`: false when no
branch assigns them — resliced major axis 1 (to coronal) with source major
axis 1 — in which case the source reads `versor[i]` on `undefined` inside
the final `ipp.map` and throws, for the non-empty position arrays the data
model supplies. -/
def ippVersorDefined (iop : List ℚ) (t : Tbl) : Bool :=
  let majorOriginalIndex := majorAxisIndex (getNormalOrientation iop)
  let majorIndex := majorAxisIndex (getNormalOrientation
    (getReslicedIOP iop t))
  decide (¬(majorIndex = 1 ∧ majorOriginalIndex = 1))

/-- Embedding of `getReslicedMetadata(reslicedSeriesId, fromOrientation,
toOrientation, seriesData, imageLoaderName)`, restricted to the geometric
fields the claims are about.  `none` models the exceptions: the TypeError
thrown when the permutation-table lookup is `undefined` (a
same-orientation request), when the series has no first instance, when the
spacing fallback's distance computation throws, and when the per-slice
loop throws inside `getReslicedIPP` — on `iop.slice` / `ipp.map` if the
sample lacks `x00200037` or `x00200032` (only when the loop runs at all,
i.e. `toSize[2] > 0`), or on `versor[i]` when no spacing/versor branch
applies. -/
def getReslicedMetadata (fromO toO : Orient) (sd : SeriesData) :
    Option ReslicedMeta :=
  match resliceTable fromO toO with
  | none => none
  | some t =>
    match sd.imageIds[0]? with
    | none => none
    | some id0 =>
      let sample := sd.meta id0
      let fromSize := fromSizeOf sd sample
      let toSize := permuteValues (permuteAbsTable t) fromSize
      let fromSpacing := spacingArray sd sample
      let toSpacing := permuteValues (permuteAbsTable t) fromSpacing
      let loopThrows : Bool :=
        if toSize 2 = 0 then false
        else match sample.x00200037, sample.x00200032 with
          | some iop, some _ => !(ippVersorDefined iop t)
          | _, _ => true
      if spacingArrayThrows sd sample || loopThrows then none
      else some ⟨toSize 1, toSize 0, [toSpacing 1, toSpacing 0],
        toSpacing 2, toSize 2⟩

/-- C9: a reslice request with identical source and target orientations is
fatal for every input series: `getReslicedMetadata` never returns
metadata, because the permutation table has no self-pair entry. -/
theorem getReslicedMetadata_self_pair_none (a : Orient) (sd : SeriesData) :
    getReslicedMetadata a a sd = none := by
  cases a <;> rfl

/-- C2: for every distinct orientation pair, on a series whose sample
slice carries the raw orientation and position tags (as the data model
requires, so that the per-slice loop does not throw), with an orientation
that selects a spacing/versor branch and a spacing path that does not
throw, the resliced dimensions and spacings are the unsigned permutation
(`output[k] = input[abs(table[k])]`) of the source dimensions and
spacings, and the total voxel count rows times cols times numSlices is
invariant under reslicing. -/
theorem getReslicedMetadata_permutes (A B : Orient) (t : Tbl)
    (ht : resliceTable A B = some t) (sd : SeriesData) (id0 : ℕ)
    (hid : sd.imageIds[0]? = some id0) (iop : List ℚ)
    (hiop : (sd.meta id0).x00200037 = some iop) (hlen : iop.length = 6)
    (hipp : ((sd.meta id0).x00200032).isSome = true)
    (hversor : ippVersorDefined iop t = true)
    (hspc : spacingArrayThrows sd (sd.meta id0) = false) :
    ∃ rm, getReslicedMetadata A B sd = some rm ∧
      rm.cols = fromSizeOf sd (sd.meta id0) (jsIdx (tget t 0)) ∧
      rm.rows = fromSizeOf sd (sd.meta id0) (jsIdx (tget t 1)) ∧
      rm.numSlices = fromSizeOf sd (sd.meta id0) (jsIdx (tget t 2)) ∧
      rm.pixelSpacing = [spacingArray sd (sd.meta id0) (jsIdx (tget t 1)),
        spacingArray sd (sd.meta id0) (jsIdx (tget t 0))] ∧
      rm.sliceSpacing = spacingArray sd (sd.meta id0) (jsIdx (tget t 2)) ∧
      rm.rows * rm.cols * rm.numSlices =
        fromSizeOf sd (sd.meta id0) 0 * fromSizeOf sd (sd.meta id0) 1 *
          fromSizeOf sd (sd.meta id0) 2 := by
  obtain ⟨ipp, hipp2⟩ := Option.isSome_iff_exists.mp hipp
  unfold getReslicedMetadata
  rw [ht, hid]
  simp only [hiop, hipp2, hversor, hspc, Bool.not_true, ite_self,
    Bool.or_false, Bool.false_eq_true, if_false]
  refine ⟨_, rfl, rfl, rfl, rfl, rfl, rfl, ?_⟩
  cases A <;> cases B <;>
    simp only [resliceTable, reduceCtorEq, Option.some.injEq] at ht <;>
    subst ht <;>
    simp [permuteValues, permuteAbsTable, tget, jsAbs, jsIdx_mk0, jsIdx_mk1,
      jsIdx_mk2] <;>
    ring

/-- Axial sample metadata that also carries the raw orientation and
position tags (x00200037, x00200032) read by the reslice loop. -/
def mdAxRaw : Metadata :=
  ⟨some [1, 0, 0, 0, 1, 0], some [1, 0, 0, 0, 1, 0], some [0, 0, 0],
    some [0, 0, 0], some [1, 1], some 3, some 1, 4, 4, [1, 1], some 2,
    none, none, 1⟩

/-- Concrete 4 by 4 by 4 axial series used as a witness. -/
def seriesEx4 : SeriesData :=
  ⟨[0, 1, 2, 3], fun _ => mdAxRaw⟩

/-- Witness for C2: reslicing the concrete 4 by 4 by 4 axial series to
sagittal permutes the sizes and spacings by the fixed table, and the voxel
count stays 4 * 4 * 4 = 64. -/
theorem getReslicedMetadata_permutes_witness :
    (∃ rm, getReslicedMetadata Orient.axial Orient.sagittal seriesEx4 =
        some rm ∧
      rm.cols = fromSizeOf seriesEx4 (seriesEx4.meta 0)
        (jsIdx (tget (⟨false, 1⟩, ⟨true, 2⟩, ⟨true, 0⟩) 0)) ∧
      rm.rows = fromSizeOf seriesEx4 (seriesEx4.meta 0)
        (jsIdx (tget (⟨false, 1⟩, ⟨true, 2⟩, ⟨true, 0⟩) 1)) ∧
      rm.numSlices = fromSizeOf seriesEx4 (seriesEx4.meta 0)
        (jsIdx (tget (⟨false, 1⟩, ⟨true, 2⟩, ⟨true, 0⟩) 2)) ∧
      rm.pixelSpacing = [spacingArray seriesEx4 (seriesEx4.meta 0)
          (jsIdx (tget (⟨false, 1⟩, ⟨true, 2⟩, ⟨true, 0⟩) 1)),
        spacingArray seriesEx4 (seriesEx4.meta 0)
          (jsIdx (tget (⟨false, 1⟩, ⟨true, 2⟩, ⟨true, 0⟩) 0))] ∧
      rm.sliceSpacing = spacingArray seriesEx4 (seriesEx4.meta 0)
        (jsIdx (tget (⟨false, 1⟩, ⟨true, 2⟩, ⟨true, 0⟩) 2)) ∧
      rm.rows * rm.cols * rm.numSlices =
        fromSizeOf seriesEx4 (seriesEx4.meta 0) 0 *
          fromSizeOf seriesEx4 (seriesEx4.meta 0) 1 *
          fromSizeOf seriesEx4 (seriesEx4.meta 0) 2) ∧
      fromSizeOf seriesEx4 (seriesEx4.meta 0) 0 *
        fromSizeOf seriesEx4 (seriesEx4.meta 0) 1 *
        fromSizeOf seriesEx4 (seriesEx4.meta 0) 2 = 64 :=
  ⟨getReslicedMetadata_permutes Orient.axial Orient.sagittal
      (⟨false, 1⟩, ⟨true, 2⟩, ⟨true, 0⟩) rfl seriesEx4 0 rfl
      [1, 0, 0, 0, 1, 0] rfl rfl rfl
      (by norm_num [ippVersorDefined, majorAxisIndex, getReslicedIOP,
        permuteSignedArrays, getNormalOrientation, tget])
      (by norm_num [spacingArrayThrows, seriesEx4, mdAxRaw]),
    by decide⟩

/-- JS tag values handled by `getMeanValue`: a number or an array of
numbers. -/
inductive TagVal where
  | num (q : ℚ)
  | arr (l : List ℚ)
deriving DecidableEq

/-- The accumulation step `acc ? acc + x : x` of `getMeanValue`: a falsy
accumulator component (zero, or still undefined) is replaced by the tag
value, which coincides with adding to zero. -/
def jsOr (acc x : ℚ) : ℚ := if acc = 0 then x else acc + x

lemma jsOr_eq_add (acc x : ℚ) : jsOr acc x = acc + x := by
  unfold jsOr
  split
  · simp [*]
  · rfl

/-- Componentwise accumulation of an array tag: component c of the
accumulator (an undefined component reads as falsy, hence the `getD 0`) is
combined with component c of the tag value.  The three unrolled branches of
the source (lengths 2, 3 and 6) each coincide with this map over the tag
value's length. -/
def accArr (acc t : List ℚ) : List ℚ :=
  (List.range t.length).map fun c => jsOr (acc.getD c 0) (t.getD c 0)

/-- One `forEach` step of `getMeanValue`.  `none` models the JS failure
paths outside the claims' domain: reading `.length` of an absent tag (a
TypeError) and the string coercions produced when a tag's kind does not
match the accumulator's kind. -/
def getMeanValueStep (acc : Option TagVal) (tv : Option TagVal) :
    Option TagVal :=
  match acc, tv with
  | some a, some t =>
    match t, a with
    | TagVal.arr l, TagVal.arr al =>
      if l.length = 2 ∨ l.length = 3 ∨ l.length = 6 then
        some (TagVal.arr (accArr al l))
      else none
    | TagVal.num q, TagVal.num s => some (TagVal.num (s + q))
    | _, _ => none
  | _, _ => none

/-- Embedding of `getMeanValue(series, tag, isArray)`: accumulate the tag
value over `series.imageIds`, then divide by the number of image ids
(componentwise for array tags). -/
def getMeanValue (sd : SeriesData) (tagOf : Metadata → Option TagVal)
    (isArray : Bool) : Option TagVal :=
  (sd.imageIds.foldl
    (fun acc id => getMeanValueStep acc (tagOf (sd.meta id)))
    (some (if isArray then TagVal.arr [] else TagVal.num 0))).map fun s =>
    match s with
    | TagVal.arr l =>
      TagVal.arr (l.map fun v => v / (sd.imageIds.length : ℚ))
    | TagVal.num q => TagVal.num (q / (sd.imageIds.length : ℚ))

/-- Tag accessor `metadata["imageOrientation"]` as a `TagVal`. -/
def tagImageOrientation (m : Metadata) : Option TagVal :=
  m.imageOrientation.map TagVal.arr

/-- Tag accessor `metadata["pixelSpacing"]` as a `TagVal`. -/
def tagPixelSpacing (m : Metadata) : Option TagVal :=
  m.pixelSpacing.map TagVal.arr

/-- Tag accessor `metadata["maxPixelValue"]` as a `TagVal`. -/
def tagMaxPixelValue (m : Metadata) : Option TagVal :=
  m.maxPixelValue.map TagVal.num

/-- Tag accessor `metadata["minPixelValue"]` as a `TagVal`. -/
def tagMinPixelValue (m : Metadata) : Option TagVal :=
  m.minPixelValue.map TagVal.num

/-- Aggregate fields of the header built by `buildHeader` of the io
module, restricted to the fields the claim is about. -/
structure VolumeHeader where
  imageOrientation : TagVal
  pixelSpacing : TagVal
  maxPixelValue : TagVal
  minPixelValue : TagVal
  sliceThickness : Option ℚ
  numberOfSlices : ℕ

/-- Embedding of `buildHeader(series)` of the io module, restricted to the
aggregate fields.  `none` models the TypeErrors that abort the real call:
the one `getMeanValue` raises on a missing tag, and the one
`getDistanceBetweenSlices(series, 0, 1)` raises on its throw paths
(`getDistanceThrows`). -/
def buildHeader (sd : SeriesData) : Option VolumeHeader :=
  if getDistanceThrows sd 0 1 then none
  else
    match getMeanValue sd tagImageOrientation true,
      getMeanValue sd tagPixelSpacing true,
      getMeanValue sd tagMaxPixelValue false,
      getMeanValue sd tagMinPixelValue false with
    | some io, some ps, some mx, some mn =>
      some ⟨io, ps, mx, mn, getDistanceBetweenSlices sd 0 1,
        sd.imageIds.length⟩
    | _, _, _, _ => none

/-- On a series whose slices all resolve a position, the distance
computation between slices 0 and 1 cannot hit a TypeError path. -/
lemma getDistanceThrows_eq_false (sd : SeriesData)
    (hpos : ∀ id ∈ sd.imageIds, ((sd.meta id).imagePosition.orElse fun _ =>
      (sd.meta id).x00200032).isSome = true) :
    getDistanceThrows sd 0 1 = false := by
  unfold getDistanceThrows
  by_cases hle : sd.imageIds.length ≤ 1
  · simp [hle]
  · rw [if_neg hle]
    have h0 : 0 < sd.imageIds.length := by omega
    have h1 : 1 < sd.imageIds.length := by omega
    rw [List.getElem?_eq_getElem h0, List.getElem?_eq_getElem h1]
    have hp1 := hpos (sd.imageIds[1]) (List.getElem_mem h1)
    obtain ⟨p2, hp2⟩ := Option.isSome_iff_exists.mp hp1
    cases hio : ((sd.meta (sd.imageIds[0])).imageOrientation.orElse
        fun _ => (sd.meta (sd.imageIds[0])).x00200037) with
    | none => simp [hio]
    | some o =>
      cases hip : ((sd.meta (sd.imageIds[0])).imagePosition.orElse
          fun _ => (sd.meta (sd.imageIds[0])).x00200032) with
      | none => simp [hio, hip]
      | some p => simp [hio, hip, hp2]

lemma getD_range_map (g : ℕ → ℚ) (L c : ℕ) (hc : c < L) :
    ((List.range L).map g).getD c 0 = g c := by
  rw [List.getD_eq_getElem?_getD, List.getElem?_map, List.getElem?_range hc]
  rfl

lemma map_getD_range (acc : List ℚ) (L : ℕ) (h : acc.length = L) :
    (List.range L).map (fun c => acc.getD c 0) = acc := by
  subst h
  apply List.ext_getElem
  · simp
  · intro n h1 h2
    simp only [List.getElem_map, List.getElem_range]
    rw [List.getD_eq_getElem?_getD, List.getElem?_eq_getElem h2]
    rfl

/-- Scalar accumulation computes the running sum of the tag values. -/
lemma foldl_step_num (ids : List ℕ) (tag : ℕ → Option ℚ)
    (h : ∀ id ∈ ids, (tag id).isSome = true) (s : ℚ) :
    ids.foldl (fun acc id => getMeanValueStep acc ((tag id).map TagVal.num))
      (some (TagVal.num s)) =
      some (TagVal.num (s + (ids.map fun id => (tag id).getD 0).sum)) := by
  induction ids generalizing s with
  | nil => simp
  | cons a l ih =>
    obtain ⟨q, hq⟩ := Option.isSome_iff_exists.mp
      (h a (List.mem_cons_self a l))
    rw [List.foldl_cons, hq]
    have hrec := ih (fun id hid => h id (List.mem_cons_of_mem a hid)) (s + q)
    simp only [getMeanValueStep, Option.map_some'] at hrec ⊢
    rw [hrec]
    simp [hq, add_assoc]

/-- Array accumulation computes the componentwise running sums, for any of
the handled tag lengths. -/
lemma foldl_step_arr (L : ℕ) (hL : L = 2 ∨ L = 3 ∨ L = 6) (ids : List ℕ)
    (tag : ℕ → Option (List ℚ))
    (h : ∀ id ∈ ids, ∃ l, tag id = some l ∧ l.length = L) (acc : List ℚ)
    (hacc : acc.length = L) :
    ids.foldl (fun a id => getMeanValueStep a ((tag id).map TagVal.arr))
      (some (TagVal.arr acc)) =
      some (TagVal.arr ((List.range L).map fun c =>
        acc.getD c 0 + (ids.map fun id =>
          ((tag id).getD []).getD c 0).sum)) := by
  induction ids generalizing acc with
  | nil =>
    rw [List.foldl_nil]
    simp only [List.map_nil, List.sum_nil, add_zero]
    rw [map_getD_range acc L hacc]
  | cons a l ih =>
    obtain ⟨la, hla, hlen⟩ := h a (List.mem_cons_self a l)
    rw [List.foldl_cons, hla]
    have hstep : getMeanValueStep (some (TagVal.arr acc))
        (Option.map TagVal.arr (some la)) =
        some (TagVal.arr (accArr acc la)) := by
      simp [getMeanValueStep, hlen, hL]
    rw [hstep]
    have hlen2 : (accArr acc la).length = L := by
      simp [accArr, hlen]
    rw [ih (fun id hid => h id (List.mem_cons_of_mem a hid)) _ hlen2]
    refine congrArg some (congrArg TagVal.arr ?_)
    apply List.map_congr_left
    intro c hc
    have hcL : c < L := List.mem_range.mp hc
    have hacc2 : (accArr acc la).getD c 0 = acc.getD c 0 + la.getD c 0 := by
      simp only [accArr, hlen]
      rw [getD_range_map _ L c hcL, jsOr_eq_add]
    rw [hacc2]
    simp [hla, add_assoc]

/-- C4: on a series whose slices all carry the aggregated tags,
`buildHeader` returns a header whose imageOrientation, pixelSpacing,
maxPixelValue and minPixelValue are the componentwise arithmetic means of
the per-slice values, and whose sliceThickness is the inter-slice distance
computed between slice 0 and slice 1. -/
theorem buildHeader_aggregate_means (sd : SeriesData)
    (hne : sd.imageIds ≠ [])
    (hio : ∀ id ∈ sd.imageIds, ∃ l,
      (sd.meta id).imageOrientation = some l ∧ l.length = 6)
    (hps : ∀ id ∈ sd.imageIds, ∃ l,
      (sd.meta id).pixelSpacing = some l ∧ l.length = 2)
    (hmx : ∀ id ∈ sd.imageIds, ((sd.meta id).maxPixelValue).isSome = true)
    (hmn : ∀ id ∈ sd.imageIds, ((sd.meta id).minPixelValue).isSome = true)
    (hpos : ∀ id ∈ sd.imageIds, ((sd.meta id).imagePosition.orElse fun _ =>
      (sd.meta id).x00200032).isSome = true) :
    ∃ h, buildHeader sd = some h ∧
      h.imageOrientation = TagVal.arr ((List.range 6).map fun c =>
        (sd.imageIds.map fun id =>
          (((sd.meta id).imageOrientation).getD []).getD c 0).sum /
          (sd.imageIds.length : ℚ)) ∧
      h.pixelSpacing = TagVal.arr ((List.range 2).map fun c =>
        (sd.imageIds.map fun id =>
          (((sd.meta id).pixelSpacing).getD []).getD c 0).sum /
          (sd.imageIds.length : ℚ)) ∧
      h.maxPixelValue = TagVal.num ((sd.imageIds.map fun id =>
        ((sd.meta id).maxPixelValue).getD 0).sum /
        (sd.imageIds.length : ℚ)) ∧
      h.minPixelValue = TagVal.num ((sd.imageIds.map fun id =>
        ((sd.meta id).minPixelValue).getD 0).sum /
        (sd.imageIds.length : ℚ)) ∧
      h.sliceThickness = getDistanceBetweenSlices sd 0 1 := by
  obtain ⟨a, rest, hids⟩ := List.exists_cons_of_ne_nil hne
  have hmem0 : a ∈ sd.imageIds := by
    rw [hids]
    exact List.mem_cons_self a rest
  have hmem : ∀ id ∈ rest, id ∈ sd.imageIds := by
    intro id hid
    rw [hids]
    exact List.mem_cons_of_mem a hid
  have harr : ∀ (sel : Metadata → Option (List ℚ)) (L : ℕ),
      L = 2 ∨ L = 3 ∨ L = 6 →
      (∀ id ∈ sd.imageIds, ∃ l, sel (sd.meta id) = some l ∧ l.length = L) →
      getMeanValue sd (fun m => (sel m).map TagVal.arr) true =
        some (TagVal.arr ((List.range L).map fun c =>
          (sd.imageIds.map fun id =>
            ((sel (sd.meta id)).getD []).getD c 0).sum /
            (sd.imageIds.length : ℚ))) := by
    intro sel L hL hsel
    unfold getMeanValue
    rw [if_pos rfl]
    obtain ⟨la, hla, hlen⟩ := hsel a hmem0
    rw [hids, List.foldl_cons]
    simp only [hla]
    have hstep : getMeanValueStep (some (TagVal.arr []))
        (Option.map TagVal.arr (some la)) =
        some (TagVal.arr (accArr [] la)) := by
      simp [getMeanValueStep, hlen, hL]
    rw [hstep]
    have hlen2 : (accArr [] la).length = L := by simp [accArr, hlen]
    rw [foldl_step_arr L hL rest (fun id => sel (sd.meta id))
      (fun id hid => hsel id (hmem id hid)) _ hlen2]
    rw [Option.map_some']
    refine congrArg some ?_
    show TagVal.arr _ = TagVal.arr _
    refine congrArg TagVal.arr ?_
    rw [List.map_map]
    apply List.map_congr_left
    intro c hc
    have hcL : c < L := List.mem_range.mp hc
    have hacc2 : (accArr [] la).getD c 0 = la.getD c 0 := by
      simp only [accArr, hlen]
      rw [getD_range_map _ L c hcL, jsOr_eq_add]
      simp
    simp only [Function.comp_apply, hacc2, List.map_cons, List.sum_cons,
      hla, Option.getD_some]
  have hnum : ∀ (sel : Metadata → Option ℚ),
      (∀ id ∈ sd.imageIds, (sel (sd.meta id)).isSome = true) →
      getMeanValue sd (fun m => (sel m).map TagVal.num) false =
        some (TagVal.num ((sd.imageIds.map fun id =>
          (sel (sd.meta id)).getD 0).sum / (sd.imageIds.length : ℚ))) := by
    intro sel hsel
    unfold getMeanValue
    rw [if_neg Bool.false_ne_true]
    rw [foldl_step_num sd.imageIds (fun id => sel (sd.meta id)) hsel 0]
    simp
  have hio2 : getMeanValue sd tagImageOrientation true =
      some (TagVal.arr ((List.range 6).map fun c =>
        (sd.imageIds.map fun id =>
          (((sd.meta id).imageOrientation).getD []).getD c 0).sum /
          (sd.imageIds.length : ℚ))) :=
    harr (fun m => m.imageOrientation) 6 (by norm_num) hio
  have hps2 : getMeanValue sd tagPixelSpacing true =
      some (TagVal.arr ((List.range 2).map fun c =>
        (sd.imageIds.map fun id =>
          (((sd.meta id).pixelSpacing).getD []).getD c 0).sum /
          (sd.imageIds.length : ℚ))) :=
    harr (fun m => m.pixelSpacing) 2 (by norm_num) hps
  have hmx2 : getMeanValue sd tagMaxPixelValue false =
      some (TagVal.num ((sd.imageIds.map fun id =>
        ((sd.meta id).maxPixelValue).getD 0).sum /
        (sd.imageIds.length : ℚ))) :=
    hnum (fun m => m.maxPixelValue) hmx
  have hmn2 : getMeanValue sd tagMinPixelValue false =
      some (TagVal.num ((sd.imageIds.map fun id =>
        ((sd.meta id).minPixelValue).getD 0).sum /
        (sd.imageIds.length : ℚ))) :=
    hnum (fun m => m.minPixelValue) hmn
  unfold buildHeader
  rw [getDistanceThrows_eq_false sd hpos, if_neg Bool.false_ne_true,
    hio2, hps2, hmx2, hmn2]
  exact ⟨_, rfl, rfl, rfl, rfl, rfl, rfl⟩

/-- Witness for C4 on the concrete two-slice axial series. -/
theorem buildHeader_aggregate_means_witness :
    ∃ h, buildHeader seriesEx2 = some h ∧
      h.imageOrientation = TagVal.arr ((List.range 6).map fun c =>
        (seriesEx2.imageIds.map fun id =>
          (((seriesEx2.meta id).imageOrientation).getD []).getD c 0).sum /
          (seriesEx2.imageIds.length : ℚ)) ∧
      h.pixelSpacing = TagVal.arr ((List.range 2).map fun c =>
        (seriesEx2.imageIds.map fun id =>
          (((seriesEx2.meta id).pixelSpacing).getD []).getD c 0).sum /
          (seriesEx2.imageIds.length : ℚ)) ∧
      h.maxPixelValue = TagVal.num ((seriesEx2.imageIds.map fun id =>
        ((seriesEx2.meta id).maxPixelValue).getD 0).sum /
        (seriesEx2.imageIds.length : ℚ)) ∧
      h.minPixelValue = TagVal.num ((seriesEx2.imageIds.map fun id =>
        ((seriesEx2.meta id).minPixelValue).getD 0).sum /
        (seriesEx2.imageIds.length : ℚ)) ∧
      h.sliceThickness = getDistanceBetweenSlices seriesEx2 0 1 := by
  apply buildHeader_aggregate_means seriesEx2
  · decide
  · intro id hid
    fin_cases hid
    · exact ⟨_, rfl, rfl⟩
    · exact ⟨_, rfl, rfl⟩
  · intro id hid
    fin_cases hid
    · exact ⟨_, rfl, rfl⟩
    · exact ⟨_, rfl, rfl⟩
  · intro id hid
    fin_cases hid
    · rfl
    · rfl
  · intro id hid
    fin_cases hid
    · rfl
    · rfl
  · intro id hid
    fin_cases hid
    · rfl
    · rfl

/-- The sort methods of `getSortedStack`. -/
inductive SortMethod where
  | contentTime
  | instanceNumber
  | imagePosition
deriving DecidableEq

/-- Embedding of `sortStackCallback(seriesData, imageId, method)`: the sort
key of an image id, or the thrown domain error.  The instance number key is
the parsed numeric tag `x00200013`; the content time key is the numeric
value of `x00080033`.  The source condition
`cardiacNumberOfImages && cardiacNumberOfImages > 1 && contentTime`
throws on a falsy gating count (covered by the `1 < c` test) and on a
falsy content time (modelled as the value 0); attributes absent on the
imagePosition path yield default keys (the JS NaN keys), a path no claim
exercises. -/
def sortStackCallback (sd : SeriesData) (imageId : ℕ)
    (method : SortMethod) : Except String ℚ :=
  match method with
  | SortMethod.instanceNumber =>
    Except.ok ((sd.meta imageId).x00200013 : ℚ)
  | SortMethod.contentTime =>
    match (sd.meta imageId).x00181090, (sd.meta imageId).x00080033 with
    | some c, some ct =>
      if 1 < c ∧ ct ≠ 0 then Except.ok ct
      else Except.error
        "Not a time series: cardiacNumberOfImages tag not available or not above 1."
    | _, _ => Except.error
      "Not a time series: cardiacNumberOfImages tag not available or not above 1."
  | SortMethod.imagePosition =>
    let p := ((sd.meta imageId).imagePosition).getD []
    let o := ((sd.meta imageId).imageOrientation).getD []
    let v1 := o.getD 0 0 * o.getD 0 0 + o.getD 3 0 * o.getD 3 0
    let v2 := o.getD 1 0 * o.getD 1 0 + o.getD 4 0 * o.getD 4 0
    let v3 := o.getD 2 0 * o.getD 2 0 + o.getD 5 0 * o.getD 5 0
    let s0 : Option ℕ := if v1 ≤ v2 ∧ v2 ≤ v3 then some 0 else none
    let s1 : Option ℕ := if v2 ≤ v1 ∧ v2 ≤ v3 then some 1 else s0
    let s2 : Option ℕ := if v3 ≤ v1 ∧ v3 ≤ v2 then some 2 else s1
    Except.ok (p.getD (s2.getD 0) 0)

/-- Sort key of an image id under a method, read off the callback (only
used after every callback of the attempt has succeeded). -/
def sortKey (sd : SeriesData) (method : SortMethod) (id : ℕ) : ℚ :=
  match sortStackCallback sd id method with
  | Except.ok k => k
  | Except.error _ => 0

/-- Embedding of `getSortedStack(seriesData, sortPriorities,
returnSuccessMethod)` (both branches of the `returnSuccessMethod` test
return the sorted list).  `lodash.sortBy` is a stable ascending sort by
the callback key, modelled by `mergeSort`; a callback throw aborts the
whole attempt and the next method is tried, modelled by running every
callback first.  `none` models the `undefined` that the hoisted `sorted`
variable holds when every method has been discarded. -/
def getSortedStack (sd : SeriesData) (sortPriorities : List SortMethod) :
    Option (List ℕ) :=
  match sortPriorities with
  | [] => none
  | method :: rest =>
    match sd.imageIds.mapM (fun id => sortStackCallback sd id method) with
    | Except.error _ => getSortedStack sd rest
    | Except.ok _ =>
      some (sd.imageIds.mergeSort (fun id1 id2 =>
        decide (sortKey sd method id1 ≤ sortKey sd method id2)))

lemma mapM_cons_error {α : Type} (f : ℕ → Except String α) (a : ℕ)
    (l : List ℕ) (e : String) (h : f a = Except.error e) :
    (a :: l).mapM f = Except.error e := by
  rw [List.mapM_cons, h]
  rfl

lemma mapM_ok_of_all {α : Type} (f : ℕ → Except String α) (l : List ℕ)
    (h : ∀ id ∈ l, ∃ k, f id = Except.ok k) :
    ∃ ks, l.mapM f = Except.ok ks := by
  induction l with
  | nil => exact ⟨[], rfl⟩
  | cons a t ih =>
    obtain ⟨k, hk⟩ := h a (List.mem_cons_self a t)
    obtain ⟨ks, hks⟩ := ih fun id hid => h id (List.mem_cons_of_mem a hid)
    refine ⟨k :: ks, ?_⟩
    rw [List.mapM_cons, hk, hks]
    rfl

/-- C8: on a series lacking cardiac-gating metadata (gating count absent or
at most 1), `getSortedStack` with priorities contentTime then
instanceNumber discards the content-time method and returns the image ids
ordered by instance number: a permutation of the input ids whose instance
numbers are ascending, strictly so when they are distinct. -/
theorem getSortedStack_fallback_instanceNumber (sd : SeriesData)
    (hne : sd.imageIds ≠ [])
    (hgate : ∀ id ∈ sd.imageIds, (sd.meta id).x00181090 = none ∨
      ∃ c, (sd.meta id).x00181090 = some c ∧ c ≤ 1) :
    ∃ out, getSortedStack sd
        [SortMethod.contentTime, SortMethod.instanceNumber] = some out ∧
      out.Perm sd.imageIds ∧
      (out.map fun id => (sd.meta id).x00200013).Pairwise (· ≤ ·) ∧
      ((sd.imageIds.map fun id => (sd.meta id).x00200013).Nodup →
        (out.map fun id => (sd.meta id).x00200013).Pairwise (· < ·)) := by
  obtain ⟨a, rest, hids⟩ := List.exists_cons_of_ne_nil hne
  have herr : sd.imageIds.mapM
      (fun id => sortStackCallback sd id SortMethod.contentTime) =
      Except.error
        "Not a time series: cardiacNumberOfImages tag not available or not above 1." := by
    rw [hids]
    apply mapM_cons_error
    have hga := hgate a (by rw [hids]; exact List.mem_cons_self a rest)
    rcases hga with hnone | ⟨c, hc, hc1⟩
    · simp [sortStackCallback, hnone]
    · cases hct : (sd.meta a).x00080033 with
      | none => simp [sortStackCallback, hc, hct]
      | some ct => simp [sortStackCallback, hc, hct, not_lt.mpr hc1]
  obtain ⟨ks, hok⟩ := mapM_ok_of_all
    (fun id => sortStackCallback sd id SortMethod.instanceNumber)
    sd.imageIds (fun id _ => ⟨_, rfl⟩)
  have hres : getSortedStack sd
      [SortMethod.contentTime, SortMethod.instanceNumber] =
      some (sd.imageIds.mergeSort (fun id1 id2 =>
        decide (sortKey sd SortMethod.instanceNumber id1 ≤
          sortKey sd SortMethod.instanceNumber id2))) := by
    simp only [getSortedStack, herr, hok]
  have hsorted := @List.sorted_mergeSort ℕ
    (fun id1 id2 => decide (sortKey sd SortMethod.instanceNumber id1 ≤
      sortKey sd SortMethod.instanceNumber id2))
    (fun x y z hxy hyz => by
      simp only [decide_eq_true_eq] at hxy hyz ⊢
      exact le_trans hxy hyz)
    (fun x y => by
      simp only [Bool.or_eq_true, decide_eq_true_eq]
      exact le_total _ _)
    sd.imageIds
  have hperm := List.mergeSort_perm sd.imageIds
    (fun id1 id2 => decide (sortKey sd SortMethod.instanceNumber id1 ≤
      sortKey sd SortMethod.instanceNumber id2))
  have hle : ((sd.imageIds.mergeSort (fun id1 id2 =>
      decide (sortKey sd SortMethod.instanceNumber id1 ≤
        sortKey sd SortMethod.instanceNumber id2))).map fun id =>
      (sd.meta id).x00200013).Pairwise (· ≤ ·) := by
    rw [List.pairwise_map]
    refine hsorted.imp ?_
    intro x y hxy
    simp only [decide_eq_true_eq, sortKey, sortStackCallback] at hxy
    exact_mod_cast hxy
  refine ⟨_, hres, hperm, hle, ?_⟩
  intro hnodup
  have hnd : ((sd.imageIds.mergeSort (fun id1 id2 =>
      decide (sortKey sd SortMethod.instanceNumber id1 ≤
        sortKey sd SortMethod.instanceNumber id2))).map fun id =>
      (sd.meta id).x00200013).Nodup :=
    ((hperm.map fun id => (sd.meta id).x00200013).nodup_iff).mpr hnodup
  exact List.Sorted.lt_of_le hle hnd

/-- Three-slice series without gating metadata; instance numbers 3, 1, 2. -/
def mdInst (n : ℤ) : Metadata :=
  ⟨some [1, 0, 0, 0, 1, 0], none, some [0, 0, 0], none, some [1, 1],
    some 3, some 1, 4, 4, [1, 1], some 2, none, none, n⟩

/-- Concrete ungated series used as the C8 witness. -/
def seriesSort : SeriesData :=
  ⟨[20, 21, 22], fun id => if id = 20 then mdInst 3
    else if id = 21 then mdInst 1 else mdInst 2⟩

/-- Witness for C8 on the concrete ungated three-slice series. -/
theorem getSortedStack_fallback_instanceNumber_witness :
    ∃ out, getSortedStack seriesSort
        [SortMethod.contentTime, SortMethod.instanceNumber] = some out ∧
      out.Perm seriesSort.imageIds ∧
      (out.map fun id => (seriesSort.meta id).x00200013).Pairwise (· ≤ ·) ∧
      ((seriesSort.imageIds.map fun id =>
          (seriesSort.meta id).x00200013).Nodup →
        (out.map fun id =>
          (seriesSort.meta id).x00200013).Pairwise (· < ·)) := by
  apply getSortedStack_fallback_instanceNumber seriesSort
  · decide
  · intro id hid
    fin_cases hid
    · exact Or.inl rfl
    · exact Or.inl rfl
    · exact Or.inl rfl

/-- JS typed array: a fixed size with zero-filled content.  Out-of-bounds
stores are silently dropped, as for `Uint16Array` and friends; element
values are kept in ℚ since no claim depends on the element width chosen by
`getPixelRepresentation`. -/
structure JSTypedArray where
  size : ℕ
  data : ℕ → ℚ

/-- Embedding of `getTypedArray(tags, size)`: a zero-filled typed array of
the requested size (the pixel representation only selects the element
width). -/
def getTypedArray (size : ℕ) : JSTypedArray := ⟨size, fun _ => 0⟩

/-- Store `a[n] = v` on a typed array: dropped when n is out of bounds. -/
def JSTypedArray.store (a : JSTypedArray) (n : ℕ) (v : ℚ) : JSTypedArray :=
  if n < a.size then ⟨a.size, fun m => if m = n then v else a.data m⟩ else a

/-- The mirrored write index `rows * cols - j * cols + i` that
`getReslicedPixeldata` uses when the row permutation entry is negative. -/
def mirroredWriteIndex (rows cols j i : ℕ) : ℕ := rows * cols - j * cols + i

/-- Embedding of `getReslicedPixeldata(imageId, originalData,
reslicedData)`.  The arguments are the values the source reads from the
two series structures: the stored permutation table of the resliced
instance, the resliced rows and cols, the frame index of the image id in
the resliced series and that series' slice count, the source column count,
and the source instances' pixel buffers by frame index (each buffer a
total index function).  A voxel whose source frame does not exist reads as
0, like the JS `undefined` stored into an integer typed array. -/
def getReslicedPixeldata (t : Tbl) (rows cols frame numOutputSlices
    fromCols : ℕ) (origSlices : List (ℕ → ℚ)) : JSTypedArray :=
  let reslicedSlice := getTypedArray (rows * cols)
  let frame2 := if isNegativeSign (tget t 2) then numOutputSlices - frame
    else frame
  (List.range rows).foldl (fun acc j =>
    (List.range cols).foldl (fun acc2 i =>
      let ijf := setAt (setAt (setAt (fun _ => 0) (permuteAbsTable t 0) i)
        (permuteAbsTable t 1) j) (permuteAbsTable t 2) frame2
      let pv : ℚ := match origSlices[ijf 2]? with
        | none => 0
        | some px => px (ijf 1 * fromCols + ijf 0)
      let index := if isNegativeSign (tget t 1) then
        mirroredWriteIndex rows cols j i else j * cols + i
      acc2.store index pv) acc) reslicedSlice

lemma store_size (a : JSTypedArray) (n : ℕ) (v : ℚ) :
    (a.store n v).size = a.size := by
  unfold JSTypedArray.store
  split <;> rfl

lemma foldl_store_size {β : Type} (l : List β)
    (f : JSTypedArray → β → JSTypedArray)
    (hf : ∀ a x, (f a x).size = a.size) (a : JSTypedArray) :
    (l.foldl f a).size = a.size := by
  induction l generalizing a with
  | nil => rfl
  | cons b t ih => rw [List.foldl_cons, ih, hf]

/-- C3 (amended): the pixel buffer returned by `getReslicedPixeldata` for
one output slice has length rows * cols of the target volume, for every
permutation table, frame, and source volume — not
rows * cols * numOutputSlices as claimed. -/
theorem getReslicedPixeldata_length (t : Tbl) (rows cols frame
    numOutputSlices fromCols : ℕ) (origSlices : List (ℕ → ℚ)) :
    (getReslicedPixeldata t rows cols frame numOutputSlices fromCols
      origSlices).size = rows * cols := by
  simp only [getReslicedPixeldata]
  refine (foldl_store_size _ _ ?_ _).trans rfl
  intro a j
  refine (foldl_store_size _ _ ?_ _).trans rfl
  intro a2 i
  exact store_size _ _ _

/-- C3 counterexample: reslicing a 2 by 3 by 4 axial volume to sagittal
gives output slices of 4 rows by 3 cols in a 2-slice resliced volume; the
buffer returned for one output slice has length 12, not
rows * cols * numOutputSlices = 24. -/
theorem getReslicedPixeldata_length_counterexample :
    ¬ ((getReslicedPixeldata (⟨false, 1⟩, ⟨true, 2⟩, ⟨true, 0⟩) 4 3 0 2 2
      (List.replicate 4 fun _ => 1)).size = 4 * 3 * 2) := by
  intro h
  have h12 : (getReslicedPixeldata (⟨false, 1⟩, ⟨true, 2⟩, ⟨true, 0⟩) 4 3 0
      2 2 (List.replicate 4 fun _ => 1)).size = 12 := by
    simp only [getReslicedPixeldata]
    refine (foldl_store_size _ _ ?_ _).trans rfl
    intro a j
    refine (foldl_store_size _ _ ?_ _).trans rfl
    intro a2 i
    exact store_size _ _ _
  rw [h12] at h
  norm_num at h

/-- C10 (refuting evidence, code bug): with the axial to sagittal table
(negative row entry) on a 2 by 2 output slice filled from an all-7 source,
the mirrored write index for j = 0, i = 0 is rows * cols - 0 + 0 = 4,
outside the buffer bounds [0, 4); the buffer element at index 0 is never
written (it stays 0 while written elements hold 7). -/
theorem reslicedPixeldata_mirror_drops_first_row :
    mirroredWriteIndex 2 2 0 0 = 4 ∧
    ¬ (mirroredWriteIndex 2 2 0 0 < 2 * 2) ∧
    isNegativeSign (tget (⟨false, 1⟩, ⟨true, 2⟩, ⟨true, 0⟩) 1) = true ∧
    (getReslicedPixeldata (⟨false, 1⟩, ⟨true, 2⟩, ⟨true, 0⟩) 2 2 1 2 2
      [fun _ => 7, fun _ => 7]).data 0 = 0 ∧
    (getReslicedPixeldata (⟨false, 1⟩, ⟨true, 2⟩, ⟨true, 0⟩) 2 2 1 2 2
      [fun _ => 7, fun _ => 7]).data 2 = 7 := by
  have hr2 : List.range 2 = [0, 1] := rfl
  refine ⟨by decide, by decide, by simp [tget], ?_, ?_⟩ <;>
  · simp only [getReslicedPixeldata, permuteAbsTable, tget, jsAbs,
      jsIdx_mk0, jsIdx_mk1, jsIdx_mk2, isNeg_t0, isNeg_t2, hr2,
      List.foldl_cons, List.foldl_nil, if_true, if_false]
    norm_num [JSTypedArray.store, getTypedArray, setAt, mirroredWriteIndex]

end Larvitar
